import Mathlib

/-!
Verification of the cryptographic core of sour-is/go-ratchet against its
natural-language specification.

The Go source is shallowly embedded: byte slices become lists of naturals
below 256, Go maps become association lists, the ring buffer of
container/ring becomes a fixed-length list whose head is the current ring
position, gob encoding/decoding of a record struct becomes the identity on
an explicit record structure, and fallible operations return Except/Option
values.  Collaborator calls whose implementation is not part of the
repository snapshot (x3dh, the Double Ratchet Encrypt/Decrypt bodies,
crypto/rand, the ulid clock) are passed in as explicit oracle arguments or
are modelled from the specification, as marked on each definition.
-/

namespace GoRatchet

/-- Byte strings are lists of naturals; well-formed bytes are below 256. -/
abbrev Bytes := List Nat

/-- All elements of a byte string are genuine bytes. -/
def bytesWF (x : Bytes) : Prop := ∀ b ∈ x, b < 256

instance (x : Bytes) : Decidable (bytesWF x) := by
  unfold bytesWF; infer_instance

/-- Go copy semantics into a zeroed region of length n: the first
min(n, |x|) bytes come from x, the rest stay zero. -/
def padTo (n : Nat) (x : Bytes) : Bytes :=
  x.take n ++ List.replicate (n - x.length) 0

/-! ## Skipped-key buffer (doubleratchet, buffer file)

`keyBuffer` wraps a container/ring of `maxSkipChains` slots.  The ring is
modelled as a list of fixed length whose head is the element the ring
pointer currently designates; `ring.Do` visits the slots in list order
starting at the head, and `ring.Prev()` is the rotation moving the head to
the previous element. -/

/-- maxSkipChains is the maximum amount of cached chains. -/
def maxSkipChains : Nat := 8

/-- maxSkipElements is the maximum amount of message keys per cached chain. -/
def maxSkipElements : Nat := 32

/-- keyBufferElement is the type of a keyBuffer ring element: a remote DH
public key together with the map from message numbers to message keys
(`map[int][]byte`, modelled as an association list). -/
structure keyBufferElement where
  dhPub : Bytes
  msgKeys : List (Int × Bytes)
deriving DecidableEq, Repr

/-- Go map assignment m[k] = v: replace an existing binding, else append. -/
def mapSet (m : List (Int × Bytes)) (k : Int) (v : Bytes) : List (Int × Bytes) :=
  if m.any (fun p => p.1 = k) then
    m.map (fun p => if p.1 = k then (k, v) else p)
  else
    m ++ [(k, v)]

/-- Go map read m[k] returning (value, ok). -/
def mapGet (m : List (Int × Bytes)) (k : Int) : Option Bytes :=
  (m.find? (fun p => p.1 = k)).map Prod.snd

/-- keyBuffer is used within the DoubleRatchet to cache skipped message
keys.  `slots` has length `maxSkipChains`; the head is the current ring
position; empty ring slots hold `none`. -/
structure keyBuffer where
  slots : List (Option keyBufferElement)
deriving DecidableEq, Repr

/-- newKeyBuffer to be used within the DoubleRatchet: a fresh ring of
maxSkipChains empty slots. -/
def newKeyBuffer : keyBuffer := ⟨List.replicate maxSkipChains none⟩

/-- ring.Prev(): rotate so that the element before the head becomes the
head. -/
def ringPrev (l : List (Option keyBufferElement)) : List (Option keyBufferElement) :=
  match l.getLast? with
  | none => l
  | some x => x :: l.dropLast

/-- Go subtle.ConstantTimeCompare: 1 exactly when the two byte strings
have equal length and contents. -/
def constantTimeCompare (x y : Bytes) : Bool := x = y

/-- elementFind searches the ring (ring.Do order, i.e. list order from the
head) for an element whose dhPub compares equal; the Go loop keeps
overwriting its result variable, so the last matching slot wins.  Returns
the slot index together with the element. -/
def keyBuffer.elementFind (kb : keyBuffer) (dhPub : Bytes) : Option (Nat × keyBufferElement) :=
  kb.slots.enum.foldl
    (fun acc p =>
      match p.2 with
      | some e => if constantTimeCompare dhPub e.dhPub then some (p.1, e) else acc
      | none => acc)
    none

/-- elementAdd creates a new keyBufferElement within the buffer,
overwriting the oldest previous element: the ring pointer moves to the
previous slot, which becomes the head and receives the new element. -/
def keyBuffer.elementAdd (kb : keyBuffer) (dhPub : Bytes) : keyBuffer × keyBufferElement :=
  let kbe : keyBufferElement := ⟨dhPub, []⟩
  (⟨(ringPrev kb.slots).set 0 (some kbe)⟩, kbe)

/-- find a message key for a sender's DH public key and the message
number.  The Go method reads the element's map and returns; it performs no
mutation, so the returned buffer is the argument unchanged. -/
def keyBuffer.find (kb : keyBuffer) (dhPub : Bytes) (msgNo : Int) : keyBuffer × Option Bytes :=
  match kb.elementFind dhPub with
  | none => (kb, none)
  | some (_, kbe) => (kb, mapGet kbe.msgKeys msgNo)

/-- insert a message key for its sender's DH public key and message
number.  If no element for dhPub exists one is added (at the new head,
slot 0); the element's map is then updated in place in its slot. -/
def keyBuffer.insert (kb : keyBuffer) (dhPub : Bytes) (msgNo : Int) (msgKey : Bytes) : keyBuffer :=
  match kb.elementFind dhPub with
  | some (i, kbe) =>
      ⟨kb.slots.set i (some { kbe with msgKeys := mapSet kbe.msgKeys msgNo msgKey })⟩
  | none =>
      let res := kb.elementAdd dhPub
      ⟨res.1.slots.set 0 (some { res.2 with msgKeys := mapSet res.2.msgKeys msgNo msgKey })⟩

/-- Number of chains currently stored in the buffer. -/
def keyBuffer.chainCount (kb : keyBuffer) : Nat := (kb.slots.filterMap id).length

/-- Buffer states reachable from the fresh buffer by insert and find
operations (find performs no mutation; its post-state is its first
component). -/
inductive keyBuffer.Reachable : keyBuffer → Prop where
  | empty : keyBuffer.Reachable newKeyBuffer
  | insert (kb : keyBuffer) (dhPub : Bytes) (msgNo : Int) (msgKey : Bytes) :
      keyBuffer.Reachable kb → keyBuffer.Reachable (kb.insert dhPub msgNo msgKey)
  | find (kb : keyBuffer) (dhPub : Bytes) (msgNo : Int) :
      keyBuffer.Reachable kb → keyBuffer.Reachable (kb.find dhPub msgNo).1

/-! ## Persistence records (doubleratchet/marshal.go)

Gob encoding of a record struct is modelled as the identity on an explicit
record structure: MarshalBinary builds the record from the live object and
UnmarshalBinary rebuilds a fresh object from the record, assigning exactly
the fields the Go code assigns. -/

/-- dhRatchet state: local DH keypair, last-seen remote DH public, current
root key, and the two mode flags (isInit models the Go isInitialized
field). -/
structure dhRatchet where
  rootKey : Bytes
  dhPub : Bytes
  dhPriv : Bytes
  peerDhPub : Bytes
  isActive : Bool
  isInit : Bool
deriving DecidableEq, Repr

/-- The gob record of dhRatchet.MarshalBinary. -/
structure dhRatchetRecord where
  RootKey : Bytes
  DhPub : Bytes
  DhPriv : Bytes
  PeerDhPub : Bytes
  IsActive : Bool
  IsInit : Bool
deriving DecidableEq, Repr

/-- dhRatchet.MarshalBinary: pack all six fields into the record. -/
def dhRatchet.marshalB (dhr : dhRatchet) : dhRatchetRecord :=
  ⟨dhr.rootKey, dhr.dhPub, dhr.dhPriv, dhr.peerDhPub, dhr.isActive, dhr.isInit⟩

/-- dhRatchet.UnmarshalBinary applied to a fresh dhRatchet: every field is
assigned from the record (the source assigns DhPriv twice, which is
harmless). -/
def dhRatchet.unmarshalB (o : dhRatchetRecord) : dhRatchet :=
  ⟨o.RootKey, o.DhPub, o.DhPriv, o.PeerDhPub, o.IsActive, o.IsInit⟩

/-- keyBuffer.MarshalBinary: collect the non-empty ring slots in ring.Do
order (head first) into the encoded list. -/
def keyBuffer.marshalB (kb : keyBuffer) : List keyBufferElement :=
  kb.slots.filterMap id

/-- keyBuffer.UnmarshalBinary, replayed on the fresh buffer the caller
provides: for each decoded element the Go loop executes
`kb.buff.Value = kbe` followed by `kb.buff.Prev()` whose result is
discarded (ring.Prev is pure), so the ring pointer never moves and every
element is written into the same head slot. -/
def keyBuffer.unmarshalB (lis : List keyBufferElement) : keyBuffer :=
  lis.foldl (fun kb kbe => ⟨kb.slots.set 0 (some kbe)⟩) newKeyBuffer

/-- DoubleRatchet state as serialized: associated data, the DH ratchet,
current chain keys, counters and the skipped-key buffer. -/
structure DoubleRatchet where
  associatedData : Bytes
  dhr : dhRatchet
  peerDhPub : Bytes
  chainKeySend : Bytes
  chainKeyRecv : Bytes
  sendNo : Int
  recvNo : Int
  prevSendNo : Int
  msgKeyBuffer : keyBuffer
deriving DecidableEq, Repr

/-- The gob record of DoubleRatchet.MarshalBinary. -/
structure DoubleRatchetRecord where
  AssociatedData : Bytes
  Dhr : dhRatchetRecord
  PeerDhPub : Bytes
  ChainKeySend : Bytes
  ChainKeyRecv : Bytes
  SendNo : Int
  RecvNo : Int
  PrevSendNo : Int
  MsgKeyBuffer : List keyBufferElement
deriving DecidableEq, Repr

/-- DoubleRatchet.MarshalBinary: pack every field, including PrevSendNo,
into the record. -/
def DoubleRatchet.marshalB (dr : DoubleRatchet) : DoubleRatchetRecord :=
  ⟨dr.associatedData, dr.dhr.marshalB, dr.peerDhPub, dr.chainKeySend,
   dr.chainKeyRecv, dr.sendNo, dr.recvNo, dr.prevSendNo, dr.msgKeyBuffer.marshalB⟩

/-- DoubleRatchet.UnmarshalBinary applied to a fresh DoubleRatchet (as
Session.UnmarshalBinary does): the source assigns associatedData,
peerDhPub, the chain keys, sendNo and recvNo, rebuilds dhr and
msgKeyBuffer, but never assigns prevSendNo, which therefore keeps the
zero value of the fresh object. -/
def DoubleRatchet.unmarshalB (o : DoubleRatchetRecord) : DoubleRatchet where
  associatedData := o.AssociatedData
  dhr := dhRatchet.unmarshalB o.Dhr
  peerDhPub := o.PeerDhPub
  chainKeySend := o.ChainKeySend
  chainKeyRecv := o.ChainKeyRecv
  sendNo := o.SendNo
  recvNo := o.RecvNo
  prevSendNo := 0
  msgKeyBuffer := keyBuffer.unmarshalB o.MsgKeyBuffer

/-! ## Wire envelope (message.go)

A message string is `"!RAT!" <digit> <base64url-no-padding(payload)> "!CHT!"`.
Strings are byte lists; base64.RawURLEncoding is implemented below. -/

/-- The base64url alphabet as byte values (A-Z, a-z, 0-9, '-', '_'). -/
def sextetChar (n : Nat) : Nat :=
  if n < 26 then 65 + n
  else if n < 52 then 97 + (n - 26)
  else if n < 62 then 48 + (n - 52)
  else if n = 62 then 45
  else 95

/-- Inverse of the base64url alphabet; none on a byte outside it. -/
def charSextet (c : Nat) : Option Nat :=
  if 65 ≤ c ∧ c ≤ 90 then some (c - 65)
  else if 97 ≤ c ∧ c ≤ 122 then some (c - 97 + 26)
  else if 48 ≤ c ∧ c ≤ 57 then some (c - 48 + 52)
  else if c = 45 then some 62
  else if c = 95 then some 63
  else none

/-- base64.RawURLEncoding encoding: 3-byte groups become 4 characters; a
2-byte tail becomes 3 characters and a 1-byte tail 2 characters, without
padding. -/
def b64encode : Bytes → Bytes
  | b0 :: b1 :: b2 :: rest =>
      let n := b0 * 65536 + b1 * 256 + b2
      sextetChar (n / 262144 % 64) :: sextetChar (n / 4096 % 64) ::
        sextetChar (n / 64 % 64) :: sextetChar (n % 64) :: b64encode rest
  | [b0, b1] =>
      let n := b0 * 1024 + b1 * 4
      [sextetChar (n / 4096 % 64), sextetChar (n / 64 % 64), sextetChar (n % 64)]
  | [b0] =>
      let n := b0 * 16
      [sextetChar (n / 64 % 64), sextetChar (n % 64)]
  | [] => []

/-- base64.RawURLEncoding decoding: 4-character groups yield 3 bytes; a
final group of 3 characters yields 2 bytes and of 2 characters 1 byte; a
single leftover character or a byte outside the alphabet is an error. -/
def b64decode : Bytes → Option Bytes
  | c0 :: c1 :: c2 :: c3 :: rest => do
      let s0 ← charSextet c0
      let s1 ← charSextet c1
      let s2 ← charSextet c2
      let s3 ← charSextet c3
      let n := ((s0 * 64 + s1) * 64 + s2) * 64 + s3
      let tail ← b64decode rest
      pure (n / 65536 :: n / 256 % 256 :: n % 256 :: tail)
  | [c0, c1, c2] => do
      let s0 ← charSextet c0
      let s1 ← charSextet c1
      let s2 ← charSextet c2
      let n := (s0 * 64 + s1) * 64 + s2
      pure [n / 1024, n / 4 % 256]
  | [c0, c1] => do
      let s0 ← charSextet c0
      let s1 ← charSextet c1
      let n := s0 * 64 + s1
      pure [n / 16]
  | [_] => none
  | [] => some []

/-- The five typed payloads (offerMessage, ackMessage, dataMessage,
closeMessage, sealedMessage), carrying their raw field bytes. -/
inductive Msg where
  | offer (idKey spKey spSig uuid nick : Bytes)
  | ack (idKey eKey uuid cipher : Bytes)
  | data (uuid payload : Bytes)
  | close (uuid payload : Bytes)
  | sealed (blob : Bytes)
deriving DecidableEq, Repr

/-- The message type digit associated with each payload shape. -/
def Msg.typeOf : Msg → Nat
  | .offer _ _ _ _ _ => 1
  | .ack _ _ _ _ => 2
  | .data _ _ => 3
  | .close _ _ => 4
  | .sealed _ => 5

/-- MarshalBinary of each payload: fixed-size fields are copied into a
zeroed buffer at fixed offsets (Go copy truncates or zero-fills), the
variable tail region has exactly the tail's length. -/
def Msg.marshalBinary : Msg → Bytes
  | .offer idKey spKey spSig uuid nick =>
      padTo 32 idKey ++ padTo 32 spKey ++ padTo 64 spSig ++ padTo 16 uuid ++ nick
  | .ack idKey eKey uuid cipher =>
      padTo 32 idKey ++ padTo 32 eKey ++ padTo 16 uuid ++ cipher
  | .data uuid payload => padTo 16 uuid ++ payload
  | .close uuid payload => padTo 16 uuid ++ payload
  | .sealed blob => blob

/-- container(t) followed by the matching UnmarshalBinary: each branch
checks the minimum payload length and slices the fields back out;
closeMessage additionally requires the payload to equal {0xff} under
constant-time comparison; an unknown type digit is an error. -/
def Msg.unmarshalBinary (t : Nat) (d : Bytes) : Option Msg :=
  if t = 1 then
    if d.length < 144 then none
    else some (.offer (d.take 32) ((d.drop 32).take 32) ((d.drop 64).take 64)
                      ((d.drop 128).take 16) (d.drop 144))
  else if t = 2 then
    if d.length ≤ 80 then none
    else some (.ack (d.take 32) ((d.drop 32).take 32) ((d.drop 64).take 16) (d.drop 80))
  else if t = 3 then
    if d.length ≤ 16 then none
    else some (.data (d.take 16) (d.drop 16))
  else if t = 4 then
    if d.length ≤ 16 then none
    else if constantTimeCompare (d.drop 16) [255] then
      some (.close (d.take 16) (d.drop 16))
    else none
  else if t = 5 then
    if d.length ≤ 1 then none
    else some (.sealed d)
  else none

/-- The bytes of the string constant "!RAT!". -/
def msgPre : Bytes := [33, 82, 65, 84, 33]

/-- The bytes of the string constant "!CHT!". -/
def msgSuf : Bytes := [33, 67, 72, 84, 33]

/-- marshalMessage: prefix, the decimal digit of the type (single digit
for the five types), the base64url body, the suffix. -/
def marshalMessage (t : Nat) (m : Msg) : Bytes :=
  msgPre ++ (48 + t) :: b64encode m.marshalBinary ++ msgSuf

/-- Outcomes of unmarshalMessage: a typed message, a returned error, or a
Go runtime panic from an out-of-range index or slice. -/
inductive URes where
  | ok (t : Nat) (m : Msg)
  | err
  | oob
deriving DecidableEq, Repr

/-- unmarshalMessage: check prefix and suffix, read the type digit at
index 5 (byte subtraction of '0' wraps mod 256), check the container
type, slice out the base64 body between prefix and suffix, decode it and
unmarshal the payload.  The index and the slice are guarded exactly as
the Go runtime guards them: index 5 requires length > 5, the slice
in[6 : len-5] requires 6 ≤ len-5. -/
def unmarshalMessage (s : Bytes) : URes :=
  if s.take 5 = msgPre ∧ s.drop (s.length - 5) = msgSuf then
    if s.length ≤ 5 then .oob
    else
      let t := (s.getD 5 0 + 256 - 48) % 256
      if 1 ≤ t ∧ t ≤ 5 then
        if s.length < 11 then .oob
        else
          match b64decode ((s.drop 6).take (s.length - 11)) with
          | none => .err
          | some d =>
            match Msg.unmarshalBinary t d with
            | none => .err
            | some m => .ok t m
      else .err
  else .err

/-- Well-formedness of a payload: genuine bytes, exact fixed-field
lengths, non-empty variable tails, and the single sentinel byte for
Close — exactly the shapes the Session layer produces. -/
def Msg.wf : Msg → Prop
  | .offer idKey spKey spSig uuid nick =>
      idKey.length = 32 ∧ spKey.length = 32 ∧ spSig.length = 64 ∧ uuid.length = 16 ∧
      bytesWF idKey ∧ bytesWF spKey ∧ bytesWF spSig ∧ bytesWF uuid ∧ bytesWF nick
  | .ack idKey eKey uuid cipher =>
      idKey.length = 32 ∧ eKey.length = 32 ∧ uuid.length = 16 ∧ cipher ≠ [] ∧
      bytesWF idKey ∧ bytesWF eKey ∧ bytesWF uuid ∧ bytesWF cipher
  | .data uuid payload =>
      uuid.length = 16 ∧ payload ≠ [] ∧ bytesWF uuid ∧ bytesWF payload
  | .close uuid payload =>
      uuid.length = 16 ∧ payload = [255] ∧ bytesWF uuid
  | .sealed blob => 2 ≤ blob.length ∧ bytesWF blob

instance (m : Msg) : Decidable m.wf := by
  cases m <;> (unfold Msg.wf; infer_instance)

/-! ## Session (xochimilco session file)

The Session owns the UUIDs, nickname, identity private key, the X3DH
signed prekey and an optional Double Ratchet.  Nil-able Go fields are
Options.  Calls into packages whose bodies are not part of the snapshot
(x3dh.CreateNewSpk, x3dh.CreateInitialMessage, x3dh.ReceiveInitialMessage,
doubleratchet.CreateActive/CreatePassive/Encrypt/Decrypt, crypto/rand) are
supplied as oracle values: a `none`/false oracle component is the
collaborator call returning an error, a `some` component its successful
result.  The control flow and every state assignment follow the source. -/

structure Session where
  LocalUUID : Bytes
  RemoteUUID : Bytes
  Me : Bytes
  IdentityKey : Option Bytes
  spkPub : Option Bytes
  spkPriv : Option Bytes
  doubleRatchet : Option DoubleRatchet
deriving DecidableEq, Repr

/-- Session.Active: true when the Double Ratchet exists. -/
def Session.Active (sess : Session) : Bool := sess.doubleRatchet.isSome

/-- The gob record of Session.MarshalBinary: LocalUUID, RemoteUUID, Me,
SpkPub, SpkPriv and the marshalled Double Ratchet — the identity key is
not part of the record. -/
structure SessionRecord where
  LocalUUID : Bytes
  RemoteUUID : Bytes
  Me : Bytes
  SpkPub : Option Bytes
  SpkPriv : Option Bytes
  DoubleRachet : Option DoubleRatchetRecord
deriving DecidableEq, Repr

/-- Session.MarshalBinary. -/
def Session.marshalB (sess : Session) : SessionRecord :=
  ⟨sess.LocalUUID, sess.RemoteUUID, sess.Me, sess.spkPub, sess.spkPriv,
   sess.doubleRatchet.map DoubleRatchet.marshalB⟩

/-- Session.UnmarshalBinary applied to a fresh Session: assigns the five
record fields and rebuilds the Double Ratchet when present; the identity
key and the verify callback are not restored. -/
def Session.unmarshalB (o : SessionRecord) : Session where
  LocalUUID := o.LocalUUID
  RemoteUUID := o.RemoteUUID
  Me := o.Me
  IdentityKey := none
  spkPub := o.SpkPub
  spkPriv := o.SpkPriv
  doubleRatchet := o.DoubleRachet.map DoubleRatchet.unmarshalB

/-- Oracle for Session.createOffer: the result of x3dh.CreateNewSpk
(spkPub, spkPriv, spkSig) and the public part of the identity key. -/
structure OfferGen where
  spk : Option (Bytes × Bytes × Bytes)
  idPub : Bytes

/-- Session.Offer via createOffer: generate the SPK (error aborts without
mutation), retain it, and emit the Offer envelope carrying the identity
public, SPK public, SPK signature, local UUID and nickname.  There is no
check of the current state. -/
def Session.Offer (sess : Session) (o : OfferGen) : Session × Except Unit Bytes :=
  match o.spk with
  | none => (sess, .error ())
  | some (spkPub, spkPriv, spkSig) =>
      let sess1 := { sess with spkPub := some spkPub, spkPriv := some spkPriv }
      (sess1, .ok (marshalMessage 1 (.offer o.idPub spkPub spkSig sess.LocalUUID sess.Me)))

/-- Oracle for Session.receiveOffer: the peer-verification verdict, the
x3dh.CreateInitialMessage result (sessKey, associatedData, ekPub), the
doubleratchet.CreateActive result, the 7 random padding bytes, the
Encrypt result (the ratchet after the call and the ciphertext), and the
identity public key. -/
structure OfferOracle where
  verifyPeer : Bool
  x3dh : Option (Bytes × Bytes × Bytes)
  createActive : Option DoubleRatchet
  randRead : Option Bytes
  encrypt : Option (DoubleRatchet × Bytes)
  idPub : Bytes

/-- Session.receiveOffer on an inbound Offer with session id offerUuid:
verify the peer, run X3DH, then assign RemoteUUID and create the Double
Ratchet (both before the remaining error checks), encrypt the initial
payload (local UUID plus 7 random bytes), null the identity key and emit
the Ack envelope. -/
def Session.receiveOffer (sess : Session) (offerUuid : Bytes) (o : OfferOracle) :
    Session × Except Unit (Bool × Bytes) :=
  if ¬ o.verifyPeer then (sess, .error ())
  else match o.x3dh with
  | none => (sess, .error ())
  | some (_, _, ekPub) =>
    let sess1 := { sess with RemoteUUID := offerUuid }
    match o.createActive with
    | none => ({ sess1 with doubleRatchet := none }, .error ())
    | some dr =>
      let sess2 := { sess1 with doubleRatchet := some dr }
      match o.randRead with
      | none => (sess2, .error ())
      | some rnd =>
        match o.encrypt with
        | none => (sess2, .error ())
        | some (dr2, ct) =>
          let _initialPayload := padTo 16 sess2.LocalUUID ++ padTo 7 rnd
          let sess3 := { sess2 with doubleRatchet := some dr2 }
          let sess4 := { sess3 with IdentityKey := none }
          (sess4, .ok (true, marshalMessage 2 (.ack o.idPub ekPub sess3.RemoteUUID ct)))

/-- Oracle for Session.receiveAck: the peer-verification verdict, the
x3dh.ReceiveInitialMessage result, the doubleratchet.CreatePassive result
and the Decrypt result (ratchet after the call and plaintext). -/
structure AckOracle where
  verifyPeer : Bool
  x3dh : Option (Bytes × Bytes)
  createPassive : Option DoubleRatchet
  decrypt : Option (DoubleRatchet × Bytes)

/-- Session.receiveAck: reject when a Double Ratchet already exists,
verify the peer, run X3DH, install the passive Double Ratchet, clear the
SPK, then decrypt the initial ciphertext; only on success are RemoteUUID
(the first 16 plaintext bytes) and the nulled identity key committed. -/
def Session.receiveAck (sess : Session) (o : AckOracle) : Session × Except Unit Bool :=
  if sess.doubleRatchet.isSome then (sess, .error ())
  else if ¬ o.verifyPeer then (sess, .error ())
  else match o.x3dh with
  | none => (sess, .error ())
  | some _ =>
    match o.createPassive with
    | none => ({ sess with doubleRatchet := none }, .error ())
    | some dr =>
      let sess1 := { sess with doubleRatchet := some dr, spkPub := none, spkPriv := none }
      match o.decrypt with
      | none => (sess1, .error ())
      | some (dr2, plaintext) =>
        ({ sess1 with doubleRatchet := some dr2, RemoteUUID := plaintext.take 16,
                      IdentityKey := none },
         .ok true)

/-- Session.receiveData: error without mutation when no Double Ratchet is
present, otherwise decrypt (the oracle carries the ratchet after the call
and the plaintext). -/
def Session.receiveData (sess : Session) (o : Option (DoubleRatchet × Bytes)) :
    Session × Except Unit Bytes :=
  if sess.doubleRatchet.isNone then (sess, .error ())
  else match o with
  | none => (sess, .error ())
  | some (dr2, pt) => ({ sess with doubleRatchet := some dr2 }, .ok pt)

/-- Session.ReceiveMsg: dispatch on the payload type.  An Offer is handled
by receiveOffer (the produced Ack envelope is surfaced through the
plaintext field), an Ack by receiveAck, a Data by receiveData; a Close
only sets the isClosed flag and performs no state change; a sealed
message falls into the default branch and is an error. -/
def Session.ReceiveMsg (sess : Session) (m : Msg)
    (oOffer : OfferOracle) (oAck : AckOracle) (oData : Option (DoubleRatchet × Bytes)) :
    Session × Except Unit (Bool × Bool × Bytes) :=
  match m with
  | .offer _ _ _ uuid _ =>
      let r := sess.receiveOffer uuid oOffer
      (r.1, r.2.map (fun p => (p.1, false, p.2)))
  | .ack _ _ _ _ =>
      let r := sess.receiveAck oAck
      (r.1, r.2.map (fun est => (est, false, [])))
  | .data _ _ =>
      let r := sess.receiveData oData
      (r.1, r.2.map (fun pt => (false, false, pt)))
  | .close _ _ => (sess, .ok (false, true, []))
  | .sealed _ => (sess, .error ())

/-- Modelled from the spec: the ulid package (not part of the snapshot)
whose SetTime overwrites the low 48 bits of the 16-byte identifier with
the epoch millisecond.  The low 48 bits of a big-endian 16-byte value are
its last six bytes. -/
def now48bytes (now : Nat) : Bytes :=
  [now / 2 ^ 40 % 256, now / 2 ^ 32 % 256, now / 2 ^ 24 % 256,
   now / 2 ^ 16 % 256, now / 2 ^ 8 % 256, now % 256]

/-- encTime: copy the UUID into a fresh 16-byte ulid (Go copy zero-fills a
short source) and stamp the current time into its low 48 bits, leaving
the remaining bits unchanged. -/
def encTime (u : Bytes) (now : Nat) : Bytes :=
  (padTo 16 u).take 10 ++ now48bytes now

/-- Big-endian value of a byte string. -/
def bytesBE (x : Bytes) : Nat := x.foldl (fun a b => a * 256 + b) 0

/-- Session.Send: error when no Double Ratchet is present, otherwise
encrypt (oracle: ratchet after the call and ciphertext; error aborts) and
emit the Data envelope whose UUID is the stored remote UUID stamped by
encTime with the current epoch millisecond. -/
def Session.Send (sess : Session) (enc : Option (DoubleRatchet × Bytes)) (now : Nat) :
    Session × Except Unit Bytes :=
  if sess.doubleRatchet.isNone then (sess, .error ())
  else match enc with
  | none => (sess, .error ())
  | some (dr2, ct) =>
      ({ sess with doubleRatchet := some dr2 },
       .ok (marshalMessage 3 (.data (encTime sess.RemoteUUID now) ct)))

/-- Session.Close: clear the SPK and drop the Double Ratchet, and emit the
Close envelope carrying the remote UUID and the sentinel byte 0xff. -/
def Session.Close (sess : Session) : Session × Bytes :=
  let sess1 := { sess with spkPub := none, spkPriv := none, doubleRatchet := none }
  (sess1, marshalMessage 4 (.close sess.RemoteUUID [255]))

/-! ## Fixtures: concrete states used by evaluations and witnesses -/

/-- A trivial DH ratchet state. -/
def dhrTriv : dhRatchet := ⟨[], [], [], [], false, false⟩

/-- A trivial Double Ratchet state. -/
def drTriv : DoubleRatchet := ⟨[], dhrTriv, [], [], [], 0, 0, 0, newKeyBuffer⟩

/-- A pending session: SPK retained, identity present, no ratchet yet. -/
def sessPending : Session := ⟨[1], [2], [77], some [3], some [4], some [5], none⟩

/-- An active session: Double Ratchet present. -/
def sessActive : Session := { sessPending with doubleRatchet := some drTriv }

/-- A skipped-key buffer caching keys for two distinct remote DH publics. -/
def kbTwoChains : keyBuffer := (newKeyBuffer.insert [1] 0 [10]).insert [2] 0 [11]

/-- A Double Ratchet with one closed previous sending chain and two cached
skipped-key chains. -/
def drC1 : DoubleRatchet := { drTriv with prevSendNo := 1, msgKeyBuffer := kbTwoChains }

/-- A buffer obtained by 33 inserts for one remote DH public with distinct
message numbers. -/
def kb33 : keyBuffer :=
  (List.range 33).foldl (fun kb i => kb.insert [7] (Int.ofNat i) [9]) newKeyBuffer

/-- An offer-processing oracle whose collaborator calls all succeed. -/
def oOfferOk : OfferOracle :=
  ⟨true, some ([], [], [20]), some drTriv, some [0, 0, 0, 0, 0, 0, 0], some (drTriv, [21]), [22]⟩

/-- An ack-processing oracle whose collaborator calls all succeed. -/
def oAckOk : AckOracle := ⟨true, some ([], []), some drTriv, some (drTriv, List.replicate 16 9)⟩

/-- An ack-processing oracle that fails at the final Decrypt. -/
def oAckDecFail : AckOracle := ⟨true, some ([], []), some drTriv, none⟩

/-- An offer oracle with every collaborator call failing (never consulted
on the paths where it appears). -/
def oOfferTriv : OfferOracle := ⟨true, none, none, none, none, []⟩

/-- An ack oracle with every collaborator call failing. -/
def oAckTriv : AckOracle := ⟨true, none, none, none⟩

/-! ## Helper lemmas -/

/-- ring.Prev preserves the ring size. -/
theorem ringPrev_length (l : List (Option keyBufferElement)) :
    (ringPrev l).length = l.length := by
  unfold ringPrev
  cases h : l.getLast? with
  | none => rfl
  | some x =>
      have hne : l ≠ [] := by
        intro he
        rw [he] at h
        simp at h
      have : l.length ≠ 0 := by
        simpa using fun hl => hne (List.length_eq_zero.mp hl)
      simp [List.length_dropLast]
      omega

/-- insert preserves the ring size. -/
theorem insert_slots_length (kb : keyBuffer) (dhPub : Bytes) (msgNo : Int) (msgKey : Bytes) :
    (kb.insert dhPub msgNo msgKey).slots.length = kb.slots.length := by
  unfold keyBuffer.insert
  cases h : kb.elementFind dhPub with
  | none => simp [keyBuffer.elementAdd, ringPrev_length]
  | some p => simp

/-! ## Claims -/

/-- C1: Persistence round-trip fails on the code: DoubleRatchet
UnmarshalBinary never assigns prevSendNo (it stays at the fresh zero
value), and keyBuffer.UnmarshalBinary writes every decoded chain into the
same ring slot because the result of ring.Prev() is discarded, so of the
two cached chains only one survives and the chain for DH public [2] is
lost entirely.  Evaluation of deserialize(serialize(x)) at a state with
prevSendNo = 1 and two cached chains. -/
theorem c1_marshal_roundtrip_fails :
    (DoubleRatchet.unmarshalB (DoubleRatchet.marshalB drC1)).prevSendNo = 0 ∧
    drC1.prevSendNo = 1 ∧
    drC1.msgKeyBuffer.chainCount = 2 ∧
    (DoubleRatchet.unmarshalB (DoubleRatchet.marshalB drC1)).msgKeyBuffer.chainCount = 1 ∧
    (drC1.msgKeyBuffer.find [2] 0).2 = some [11] ∧
    ((DoubleRatchet.unmarshalB (DoubleRatchet.marshalB drC1)).msgKeyBuffer.find [2] 0).2 = none ∧
    DoubleRatchet.unmarshalB (DoubleRatchet.marshalB drC1) ≠ drC1 := by
  decide

/-- C2: Skipped-key consumption fails on the code: keyBuffer.find returns
the stored key but performs no deletion, so the buffer after find is
unchanged and a second find for the same (peer DH public, message number)
succeeds with the same key. -/
theorem c2_find_does_not_consume :
    ((newKeyBuffer.insert [1] 0 [42]).find [1] 0).2 = some [42] ∧
    ((newKeyBuffer.insert [1] 0 [42]).find [1] 0).1 = newKeyBuffer.insert [1] 0 [42] ∧
    ((((newKeyBuffer.insert [1] 0 [42]).find [1] 0).1).find [1] 0).2 = some [42] := by
  decide

/-- C3 (amended): in every buffer state reachable from the empty buffer by
insert and find operations the ring size stays maxSkipChains, so at most
8 chains are ever stored; the per-chain 32-key bound is not enforced by
the buffer itself (see the counterexample). -/
theorem c3_chain_ring_bound (kb : keyBuffer) (h : kb.Reachable) :
    kb.slots.length = maxSkipChains ∧ kb.chainCount ≤ maxSkipChains := by
  have hlen : kb.slots.length = maxSkipChains := by
    induction h with
    | empty => simp [newKeyBuffer]
    | insert kb dhPub msgNo msgKey _ ih => rw [insert_slots_length]; exact ih
    | find kb dhPub msgNo _ ih =>
        unfold keyBuffer.find
        cases kb.elementFind dhPub with
        | none => exact ih
        | some p => exact ih
  refine ⟨hlen, ?_⟩
  calc kb.chainCount ≤ kb.slots.length := List.length_filterMap_le _ _
    _ = maxSkipChains := hlen

/-- C3 witness: the bound instantiated at the empty buffer. -/
theorem c3_chain_ring_bound_witness :
    newKeyBuffer.slots.length = maxSkipChains ∧ newKeyBuffer.chainCount ≤ maxSkipChains :=
  c3_chain_ring_bound newKeyBuffer keyBuffer.Reachable.empty

/-- C3 counterexample: 33 inserts for a single remote DH public with
distinct message numbers produce a reachable buffer whose single chain
maps 33 > 32 message numbers, so the claimed per-chain bound (and the
256-key total) does not hold for arbitrary insert sequences. -/
theorem c3_per_chain_bound_fails :
    kb33.Reachable ∧
    (kb33.elementFind [7]).map (fun p => p.2.msgKeys.length) = some 33 := by
  constructor
  · have step : ∀ (l : List Nat) (kb : keyBuffer), kb.Reachable →
        (l.foldl (fun kb i => kb.insert [7] (Int.ofNat i) [9]) kb).Reachable := by
      intro l
      induction l with
      | nil => intro kb h; exact h
      | cons a as ih =>
          intro kb h
          exact ih _ (keyBuffer.Reachable.insert kb [7] (Int.ofNat a) [9] h)
    unfold kb33
    exact step _ _ keyBuffer.Reachable.empty
  · decide

/-- C5 (amended): receiving an Ack while a Double Ratchet exists and a
Data without one error without mutation, and peer-verification refusal
and X3DH failure leave the session unchanged for both inbound Offer and
inbound Ack; the remaining failure points mutate (see the
counterexample). -/
theorem c5_error_atomicity_guarded (sess : Session) (oA : AckOracle) (oO : OfferOracle)
    (oD : Option (DoubleRatchet × Bytes)) (u : Bytes) :
    (sess.doubleRatchet.isSome = true → sess.receiveAck oA = (sess, .error ())) ∧
    (sess.doubleRatchet = none → sess.receiveData oD = (sess, .error ())) ∧
    (oA.verifyPeer = false → sess.receiveAck oA = (sess, .error ())) ∧
    (oA.x3dh = none → sess.receiveAck oA = (sess, .error ())) ∧
    (oO.verifyPeer = false → sess.receiveOffer u oO = (sess, .error ())) ∧
    (oO.x3dh = none → sess.receiveOffer u oO = (sess, .error ())) := by
  refine ⟨?_, ?_, ?_, ?_, ?_, ?_⟩
  · intro h; simp [Session.receiveAck, h]
  · intro h; simp [Session.receiveData, h]
  · intro h
    unfold Session.receiveAck
    by_cases hs : sess.doubleRatchet.isSome <;> simp [hs, h]
  · intro h
    unfold Session.receiveAck
    by_cases hs : sess.doubleRatchet.isSome <;>
      by_cases hv : oA.verifyPeer <;> simp [hs, hv, h]
  · intro h; simp [Session.receiveOffer, h]
  · intro h
    unfold Session.receiveOffer
    by_cases hv : oO.verifyPeer <;> simp [hv, h]

/-- C5 witness: the atomic error paths instantiated at concrete states:
an Ack received while active, and a refused peer on a pending session. -/
theorem c5_error_atomicity_guarded_witness :
    sessActive.receiveAck oAckOk = (sessActive, .error ()) ∧
    sessPending.receiveOffer [9] { oOfferOk with verifyPeer := false }
      = (sessPending, .error ()) :=
  ⟨(c5_error_atomicity_guarded sessActive oAckOk oOfferOk none [9]).1 (by decide),
   (c5_error_atomicity_guarded sessPending oAckOk { oOfferOk with verifyPeer := false }
      none [9]).2.2.2.2.1 (by decide)⟩

/-- C5 counterexample: a decryption failure while processing an inbound
Ack does mutate the session: the passive Double Ratchet stays installed
and the SPK is cleared, although an error is returned. -/
theorem c5_ack_decrypt_failure_mutates :
    sessPending.receiveAck oAckDecFail
      = ({ sessPending with doubleRatchet := some drTriv,
                            spkPub := none, spkPriv := none }, .error ()) ∧
    (sessPending.receiveAck oAckDecFail).1 ≠ sessPending := by
  refine ⟨rfl, ?_⟩
  decide

/-- C6 (amended): receiving a Close envelope signals isClosed without
error but performs no state change at all: the session is returned
exactly as it was (in particular Active is unchanged, not reset to
Empty — resetting is left to the caller's Close()); a second Close
behaves identically and is not an error. -/
theorem c6_close_no_state_change (sess : Session) (u p : Bytes)
    (oO : OfferOracle) (oA : AckOracle) (oD : Option (DoubleRatchet × Bytes)) :
    sess.ReceiveMsg (.close u p) oO oA oD = (sess, .ok (false, true, [])) ∧
    ((sess.ReceiveMsg (.close u p) oO oA oD).1.ReceiveMsg (.close u p) oO oA oD)
      = (sess, .ok (false, true, [])) ∧
    (sess.ReceiveMsg (.close u p) oO oA oD).1.Active = sess.Active :=
  ⟨rfl, rfl, rfl⟩

/-- C6 counterexample: an active session that receives a Close reports
isClosed = true with no error, yet is still Active afterwards — the state
does not become Empty. -/
theorem c6_close_does_not_empty :
    (sessActive.ReceiveMsg (.close [2] [255]) oOfferTriv oAckTriv none).2
      = .ok (false, true, []) ∧
    (sessActive.ReceiveMsg (.close [2] [255]) oOfferTriv oAckTriv none).1.Active = true ∧
    sessActive.Active = true :=
  ⟨rfl, rfl, rfl⟩

/-- C7 (amended): Offer performs no state check: whenever SPK generation
succeeds it succeeds from any state, overwriting the retained SPK and
emitting the Offer envelope; Send errors without mutation whenever no
Double Ratchet is present. -/
theorem c7_offer_unchecked_send_guarded (sess : Session)
    (spkPub spkPriv spkSig idPub : Bytes)
    (enc : Option (DoubleRatchet × Bytes)) (now : Nat)
    (hdr : sess.doubleRatchet = none) :
    sess.Offer ⟨some (spkPub, spkPriv, spkSig), idPub⟩
      = ({ sess with spkPub := some spkPub, spkPriv := some spkPriv },
         .ok (marshalMessage 1 (.offer idPub spkPub spkSig sess.LocalUUID sess.Me))) ∧
    sess.Send enc now = (sess, .error ()) := by
  constructor
  · rfl
  · simp [Session.Send, hdr]

/-- C7 witness: instantiated at the pending session. -/
theorem c7_offer_unchecked_send_guarded_witness :
    sessPending.Offer ⟨some ([6], [7], [8]), [9]⟩
      = ({ sessPending with spkPub := some [6], spkPriv := some [7] },
         .ok (marshalMessage 1 (.offer [9] [6] [8] sessPending.LocalUUID sessPending.Me))) ∧
    sessPending.Send none 0 = (sessPending, .error ()) :=
  c7_offer_unchecked_send_guarded sessPending [6] [7] [8] [9] none 0 (by decide)

/-- C7 counterexample: Offer succeeds on a session that is Active (a
Double Ratchet is present), contradicting that Offer is only legal from
Empty and errors from any other state. -/
theorem c7_offer_succeeds_while_active :
    sessActive.Active = true ∧
    (sessActive.Offer ⟨some ([6], [7], [8]), [9]⟩).2
      = .ok (marshalMessage 1 (.offer [9] [6] [8] sessActive.LocalUUID sessActive.Me)) :=
  ⟨rfl, rfl⟩

/-- True exactly on a Go call that returned no error. -/
def exIsOk {α : Type} : Except Unit α → Bool
  | .ok _ => true
  | .error _ => false

/-- C8: identity-key hygiene: every successful receiveOffer and every
successful receiveAck leaves the session with a nulled identity key, and
Session.MarshalBinary never depends on the identity key — the serialized
record of any session equals that of the same session with the identity
key removed, so no session blob contains identity-private bytes. -/
theorem c8_identity_key_hygiene :
    (∀ (sess : Session) (u : Bytes) (o : OfferOracle),
        exIsOk (sess.receiveOffer u o).2 → (sess.receiveOffer u o).1.IdentityKey = none) ∧
    (∀ (sess : Session) (o : AckOracle),
        exIsOk (sess.receiveAck o).2 → (sess.receiveAck o).1.IdentityKey = none) ∧
    (∀ sess : Session, sess.marshalB = Session.marshalB { sess with IdentityKey := none }) := by
  refine ⟨?_, ?_, fun _ => rfl⟩
  · intro sess u o h
    obtain ⟨v, x, ca, rr, en, ip⟩ := o
    cases v <;> rcases x with _ | ⟨⟨k, ad, ek⟩⟩ <;> cases ca <;> cases rr <;>
      rcases en with _ | ⟨⟨dr2, ct⟩⟩ <;>
      simp_all [Session.receiveOffer, exIsOk]
  · intro sess o h
    obtain ⟨v, x, cp, de⟩ := o
    by_cases hs : sess.doubleRatchet.isSome <;>
      cases v <;> cases x <;> cases cp <;> rcases de with _ | ⟨⟨dr2, pt⟩⟩ <;>
      simp_all [Session.receiveAck, exIsOk]

/-- C8 witness: both activation paths instantiated at the pending session
with all-succeeding collaborator oracles. -/
theorem c8_identity_key_hygiene_witness :
    (sessPending.receiveOffer [2] oOfferOk).1.IdentityKey = none ∧
    (sessPending.receiveAck oAckOk).1.IdentityKey = none :=
  ⟨c8_identity_key_hygiene.1 sessPending [2] oOfferOk (by decide),
   c8_identity_key_hygiene.2.1 sessPending oAckOk (by decide)⟩

/-- C9: on an active session, Send stamps the outbound Data envelope with
encTime of the stored remote UUID: the low 48 bits (the last six bytes of
the 16-byte identifier) become the current epoch millisecond and the
first ten bytes are unchanged. -/
theorem c9_send_uuid_timestamp (sess : Session) (dr0 dr2 : DoubleRatchet)
    (ct : Bytes) (now : Nat)
    (hdr : sess.doubleRatchet = some dr0) (hu : sess.RemoteUUID.length = 16) :
    sess.Send (some (dr2, ct)) now
      = ({ sess with doubleRatchet := some dr2 },
         .ok (marshalMessage 3 (.data (encTime sess.RemoteUUID now) ct))) ∧
    (encTime sess.RemoteUUID now).take 10 = sess.RemoteUUID.take 10 ∧
    (encTime sess.RemoteUUID now).drop 10 = now48bytes now ∧
    (encTime sess.RemoteUUID now).length = 16 ∧
    bytesBE ((encTime sess.RemoteUUID now).drop 10) = now % 2 ^ 48 := by
  have hpad : padTo 16 sess.RemoteUUID = sess.RemoteUUID := by
    unfold padTo
    rw [hu]
    simp [List.take_of_length_le, hu.le]
  have htake10 : ((padTo 16 sess.RemoteUUID).take 10).length = 10 := by
    rw [hpad]
    simp [hu]
  refine ⟨?_, ?_, ?_, ?_, ?_⟩
  · simp [Session.Send, hdr]
  · unfold encTime
    rw [List.take_left' htake10, hpad]
  · unfold encTime
    exact List.drop_left' htake10
  · unfold encTime
    simp [htake10, now48bytes]
  · unfold encTime
    rw [List.drop_left' htake10]
    unfold bytesBE now48bytes
    simp only [List.foldl_cons, List.foldl_nil]
    omega

/-- C9 witness: instantiated at an active session with a 16-byte remote
UUID and timestamp 300000000000 (within 48 bits). -/
theorem c9_send_uuid_timestamp_witness :
    let s16 : Session := { sessActive with RemoteUUID := List.replicate 16 3 }
    s16.Send (some (drTriv, [9])) 300000000000
      = ({ s16 with doubleRatchet := some drTriv },
         .ok (marshalMessage 3 (.data (encTime s16.RemoteUUID 300000000000) [9]))) ∧
    (encTime s16.RemoteUUID 300000000000).take 10 = s16.RemoteUUID.take 10 ∧
    (encTime s16.RemoteUUID 300000000000).drop 10 = now48bytes 300000000000 ∧
    (encTime s16.RemoteUUID 300000000000).length = 16 ∧
    bytesBE ((encTime s16.RemoteUUID 300000000000).drop 10) = 300000000000 % 2 ^ 48 :=
  c9_send_uuid_timestamp _ drTriv drTriv [9] 300000000000 (by decide) (by decide)

/-! ## Base64 and envelope round-trip lemmas -/

/-- Decoding inverts the alphabet on every sextet, checked by
enumeration. -/
theorem charSextet_sextetChar_fin :
    ∀ s : Fin 64, charSextet (sextetChar s.val) = some s.val := by decide

/-- Decoding inverts the alphabet on every sextet. -/
theorem charSextet_sextetChar (s : Nat) (h : s < 64) :
    charSextet (sextetChar s) = some s :=
  charSextet_sextetChar_fin ⟨s, h⟩

/-- base64 decoding inverts base64 encoding on genuine byte strings. -/
theorem b64decode_b64encode (x : Bytes) (h : bytesWF x) :
    b64decode (b64encode x) = some x := by
  induction x using b64encode.induct with
  | case1 b0 b1 b2 rest ih =>
      have hb0 : b0 < 256 := h b0 (by simp)
      have hb1 : b1 < 256 := h b1 (by simp)
      have hb2 : b2 < 256 := h b2 (by simp)
      have hrest : bytesWF rest := fun b hb => h b (by simp [hb])
      have htail := ih hrest
      simp only [b64encode, b64decode]
      rw [charSextet_sextetChar _ (Nat.mod_lt _ (by omega)),
          charSextet_sextetChar _ (Nat.mod_lt _ (by omega)),
          charSextet_sextetChar _ (Nat.mod_lt _ (by omega)),
          charSextet_sextetChar _ (Nat.mod_lt _ (by omega))]
      simp only [Option.bind_some, Option.some_bind, htail]
      simp only [Option.bind_eq_bind, Option.some_bind]
      congr 1
      simp only [List.cons.injEq, and_true]
      omega
  | case2 b0 b1 =>
      have hb0 : b0 < 256 := h b0 (by simp)
      have hb1 : b1 < 256 := h b1 (by simp)
      simp only [b64encode, b64decode]
      rw [charSextet_sextetChar _ (Nat.mod_lt _ (by omega)),
          charSextet_sextetChar _ (Nat.mod_lt _ (by omega)),
          charSextet_sextetChar _ (Nat.mod_lt _ (by omega))]
      simp only [Option.bind_eq_bind, Option.some_bind]
      congr 1
      simp only [List.cons.injEq, and_true]
      omega
  | case3 b0 =>
      have hb0 : b0 < 256 := h b0 (by simp)
      simp only [b64encode, b64decode]
      rw [charSextet_sextetChar _ (Nat.mod_lt _ (by omega)),
          charSextet_sextetChar _ (Nat.mod_lt _ (by omega))]
      simp only [Option.bind_eq_bind, Option.some_bind]
      congr 1
      simp only [List.cons.injEq, and_true]
      omega
  | case4 => rfl

/-- Concatenation of genuine byte strings is genuine. -/
theorem bytesWF_append {x y : Bytes} (hx : bytesWF x) (hy : bytesWF y) :
    bytesWF (x ++ y) := by
  intro b hb
  rcases List.mem_append.mp hb with h | h
  · exact hx b h
  · exact hy b h

/-- Copying a genuine byte string into a zeroed region stays genuine. -/
theorem bytesWF_padTo (n : Nat) {x : Bytes} (hx : bytesWF x) : bytesWF (padTo n x) := by
  apply bytesWF_append
  · intro b hb
    exact hx b (List.take_subset n x hb)
  · intro b hb
    have := List.eq_of_mem_replicate hb
    omega

/-- Copying a byte string of exactly the region's length is the
identity. -/
theorem padTo_eq_self {n : Nat} {x : Bytes} (h : x.length = n) : padTo n x = x := by
  unfold padTo
  rw [List.take_of_length_le h.le, h]
  simp

/-- Payloads of well-formed messages consist of genuine bytes. -/
theorem marshalBinary_wf (m : Msg) (h : m.wf) : bytesWF m.marshalBinary := by
  cases m with
  | offer idKey spKey spSig uuid nick =>
      obtain ⟨_, _, _, _, h1, h2, h3, h4, h5⟩ := h
      simp only [Msg.marshalBinary, List.append_assoc]
      exact bytesWF_append (bytesWF_padTo _ h1) (bytesWF_append (bytesWF_padTo _ h2)
        (bytesWF_append (bytesWF_padTo _ h3) (bytesWF_append (bytesWF_padTo _ h4) h5)))
  | ack idKey eKey uuid cipher =>
      obtain ⟨_, _, _, _, h1, h2, h3, h4⟩ := h
      simp only [Msg.marshalBinary, List.append_assoc]
      exact bytesWF_append (bytesWF_padTo _ h1) (bytesWF_append (bytesWF_padTo _ h2)
        (bytesWF_append (bytesWF_padTo _ h3) h4))
  | data uuid payload =>
      obtain ⟨_, _, h1, h2⟩ := h
      exact bytesWF_append (bytesWF_padTo _ h1) h2
  | close uuid payload =>
      obtain ⟨_, hp, h1⟩ := h
      subst hp
      exact bytesWF_append (bytesWF_padTo _ h1) (by intro b hb; simp at hb; omega)
  | sealed blob => exact h.2

/-- Unmarshalling a well-formed message's payload under its own type digit
restores the message exactly. -/
theorem unmarshalBinary_marshalBinary (m : Msg) (h : m.wf) :
    Msg.unmarshalBinary m.typeOf m.marshalBinary = some m := by
  have u1 : ∀ d : Bytes, Msg.unmarshalBinary 1 d =
      if d.length < 144 then none
      else some (.offer (d.take 32) ((d.drop 32).take 32) ((d.drop 64).take 64)
                        ((d.drop 128).take 16) (d.drop 144)) := fun d => rfl
  have u2 : ∀ d : Bytes, Msg.unmarshalBinary 2 d =
      if d.length ≤ 80 then none
      else some (.ack (d.take 32) ((d.drop 32).take 32) ((d.drop 64).take 16) (d.drop 80)) :=
    fun d => rfl
  have u3 : ∀ d : Bytes, Msg.unmarshalBinary 3 d =
      if d.length ≤ 16 then none
      else some (.data (d.take 16) (d.drop 16)) := fun d => rfl
  have u4 : ∀ d : Bytes, Msg.unmarshalBinary 4 d =
      if d.length ≤ 16 then none
      else if constantTimeCompare (d.drop 16) [255] then
        some (.close (d.take 16) (d.drop 16))
      else none := fun d => rfl
  have u5 : ∀ d : Bytes, Msg.unmarshalBinary 5 d =
      if d.length ≤ 1 then none else some (.sealed d) := fun d => rfl
  cases m with
  | offer idKey spKey spSig uuid nick =>
      obtain ⟨l1, l2, l3, l4, -⟩ := h
      have p1 : padTo 32 idKey = idKey := padTo_eq_self l1
      have p2 : padTo 32 spKey = spKey := padTo_eq_self l2
      have p3 : padTo 64 spSig = spSig := padTo_eq_self l3
      have p4 : padTo 16 uuid = uuid := padTo_eq_self l4
      simp only [Msg.typeOf, Msg.marshalBinary, u1, p1, p2, p3, p4, List.append_assoc]
      have hlen : (idKey ++ (spKey ++ (spSig ++ (uuid ++ nick)))).length = 144 + nick.length := by
        simp [l1, l2, l3, l4]
        omega
      rw [if_neg (by omega)]
      have d32 : (idKey ++ (spKey ++ (spSig ++ (uuid ++ nick)))).drop 32
          = spKey ++ (spSig ++ (uuid ++ nick)) := List.drop_left' l1
      have d64 : (idKey ++ (spKey ++ (spSig ++ (uuid ++ nick)))).drop 64
          = spSig ++ (uuid ++ nick) := by
        rw [show (64 : Nat) = 32 + 32 from rfl, ← List.drop_drop, d32, List.drop_left' l2]
      have d128 : (idKey ++ (spKey ++ (spSig ++ (uuid ++ nick)))).drop 128
          = uuid ++ nick := by
        rw [show (128 : Nat) = 64 + 64 from rfl, ← List.drop_drop, d64, List.drop_left' l3]
      have d144 : (idKey ++ (spKey ++ (spSig ++ (uuid ++ nick)))).drop 144 = nick := by
        rw [show (144 : Nat) = 128 + 16 from rfl, ← List.drop_drop, d128, List.drop_left' l4]
      rw [List.take_left' l1, d32, List.take_left' l2, d64, List.take_left' l3,
          d128, List.take_left' l4, d144]
  | ack idKey eKey uuid cipher =>
      obtain ⟨l1, l2, l3, lc, -⟩ := h
      have p1 : padTo 32 idKey = idKey := padTo_eq_self l1
      have p2 : padTo 32 eKey = eKey := padTo_eq_self l2
      have p3 : padTo 16 uuid = uuid := padTo_eq_self l3
      simp only [Msg.typeOf, Msg.marshalBinary, u2, p1, p2, p3, List.append_assoc]
      have hlen : (idKey ++ (eKey ++ (uuid ++ cipher))).length = 80 + cipher.length := by
        simp [l1, l2, l3]
        omega
      have hc : cipher.length ≠ 0 := by
        simpa using fun hl => lc (List.length_eq_zero.mp hl)
      rw [if_neg (by omega)]
      have d32 : (idKey ++ (eKey ++ (uuid ++ cipher))).drop 32 = eKey ++ (uuid ++ cipher) :=
        List.drop_left' l1
      have d64 : (idKey ++ (eKey ++ (uuid ++ cipher))).drop 64 = uuid ++ cipher := by
        rw [show (64 : Nat) = 32 + 32 from rfl, ← List.drop_drop, d32, List.drop_left' l2]
      have d80 : (idKey ++ (eKey ++ (uuid ++ cipher))).drop 80 = cipher := by
        rw [show (80 : Nat) = 64 + 16 from rfl, ← List.drop_drop, d64, List.drop_left' l3]
      rw [List.take_left' l1, d32, List.take_left' l2, d64, List.take_left' l3, d80]
  | data uuid payload =>
      obtain ⟨l1, lp, -⟩ := h
      have p1 : padTo 16 uuid = uuid := padTo_eq_self l1
      simp only [Msg.typeOf, Msg.marshalBinary, u3, p1]
      have hp : payload.length ≠ 0 := by
        simpa using fun hl => lp (List.length_eq_zero.mp hl)
      have hlen : (uuid ++ payload).length = 16 + payload.length := by simp [l1]
      rw [if_neg (by omega), List.take_left' l1, List.drop_left' l1]
  | close uuid payload =>
      obtain ⟨l1, lp, -⟩ := h
      subst lp
      have p1 : padTo 16 uuid = uuid := padTo_eq_self l1
      simp only [Msg.typeOf, Msg.marshalBinary, u4, p1]
      have hlen : (uuid ++ [255]).length = 17 := by simp [l1]
      rw [if_neg (by omega), List.take_left' l1, List.drop_left' l1]
      simp [constantTimeCompare]
  | sealed blob =>
      obtain ⟨l2, -⟩ := h
      simp only [Msg.typeOf, Msg.marshalBinary, u5]
      rw [if_neg (by omega)]

/-- Parsing a formatted envelope reduces to unmarshalling its payload:
the prefix, the type digit, the base64 body and the suffix are recovered
exactly. -/
theorem unmarshalMessage_marshalMessage (t : Nat) (m : Msg) (h1 : 1 ≤ t) (h5 : t ≤ 5)
    (hwf : bytesWF m.marshalBinary) :
    unmarshalMessage (marshalMessage t m) =
      match Msg.unmarshalBinary t m.marshalBinary with
      | none => .err
      | some m' => .ok t m' := by
  have hs : marshalMessage t m = msgPre ++ (48 + t) :: (b64encode m.marshalBinary ++ msgSuf) :=
    rfl
  have hlen : (marshalMessage t m).length = 11 + (b64encode m.marshalBinary).length := by
    rw [hs]
    simp [msgPre, msgSuf]
    omega
  have hpre : (marshalMessage t m).take 5 = msgPre := by
    rw [hs]
    exact List.take_left' rfl
  have hsuf : (marshalMessage t m).drop ((marshalMessage t m).length - 5) = msgSuf := by
    rw [hlen, hs]
    rw [show msgPre ++ (48 + t) :: (b64encode m.marshalBinary ++ msgSuf)
        = (msgPre ++ (48 + t) :: b64encode m.marshalBinary) ++ msgSuf by simp]
    apply List.drop_left'
    simp [msgPre]
    omega
  have hgetD : (marshalMessage t m).getD 5 0 = 48 + t := by
    rw [hs]
    rfl
  have hbody : ((marshalMessage t m).drop 6).take ((marshalMessage t m).length - 11)
      = b64encode m.marshalBinary := by
    rw [hlen, hs]
    rw [show msgPre ++ (48 + t) :: (b64encode m.marshalBinary ++ msgSuf)
        = (msgPre ++ [48 + t]) ++ (b64encode m.marshalBinary ++ msgSuf) by simp]
    rw [List.drop_left' (by simp [msgPre])]
    rw [show 11 + (b64encode m.marshalBinary).length - 11
        = (b64encode m.marshalBinary).length by omega]
    exact List.take_left _ _
  simp only [unmarshalMessage]
  rw [if_pos ⟨hpre, hsuf⟩,
      if_neg (show ¬((marshalMessage t m).length ≤ 5) by rw [hlen]; omega),
      hgetD,
      show (48 + t + 256 - 48) % 256 = t by omega]
  rw [if_pos ⟨h1, h5⟩,
      if_neg (show ¬((marshalMessage t m).length < 11) by rw [hlen]; omega),
      hbody,
      b64decode_b64encode _ hwf]

/-- C4: envelope round-trip: for every well-formed message payload of each
of the five types, parsing the formatted envelope succeeds and returns
the same type digit and a payload whose field bytes equal the original
exactly. -/
theorem c4_envelope_roundtrip (m : Msg) (h : m.wf) :
    unmarshalMessage (marshalMessage m.typeOf m) = .ok m.typeOf m := by
  have ht : 1 ≤ m.typeOf ∧ m.typeOf ≤ 5 := by
    cases m <;> simp [Msg.typeOf]
  rw [unmarshalMessage_marshalMessage m.typeOf m ht.1 ht.2 (marshalBinary_wf m h),
      unmarshalBinary_marshalBinary m h]

/-- C4 witness: the round-trip instantiated at one concrete well-formed
message of each of the five types. -/
theorem c4_envelope_roundtrip_witness :
    unmarshalMessage (marshalMessage 1 (.offer (List.replicate 32 1) (List.replicate 32 2)
        (List.replicate 64 3) (List.replicate 16 4) [65, 66]))
      = .ok 1 (.offer (List.replicate 32 1) (List.replicate 32 2)
          (List.replicate 64 3) (List.replicate 16 4) [65, 66]) ∧
    unmarshalMessage (marshalMessage 2 (.ack (List.replicate 32 1) (List.replicate 32 2)
        (List.replicate 16 4) [7]))
      = .ok 2 (.ack (List.replicate 32 1) (List.replicate 32 2) (List.replicate 16 4) [7]) ∧
    unmarshalMessage (marshalMessage 3 (.data (List.replicate 16 4) [9, 8]))
      = .ok 3 (.data (List.replicate 16 4) [9, 8]) ∧
    unmarshalMessage (marshalMessage 4 (.close (List.replicate 16 4) [255]))
      = .ok 4 (.close (List.replicate 16 4) [255]) ∧
    unmarshalMessage (marshalMessage 5 (.sealed [1, 2, 3]))
      = .ok 5 (.sealed [1, 2, 3]) :=
  ⟨c4_envelope_roundtrip (.offer (List.replicate 32 1) (List.replicate 32 2)
      (List.replicate 64 3) (List.replicate 16 4) [65, 66]) (by decide),
   c4_envelope_roundtrip (.ack (List.replicate 32 1) (List.replicate 32 2)
      (List.replicate 16 4) [7]) (by decide),
   c4_envelope_roundtrip (.data (List.replicate 16 4) [9, 8]) (by decide),
   c4_envelope_roundtrip (.close (List.replicate 16 4) [255]) (by decide),
   c4_envelope_roundtrip (.sealed [1, 2, 3]) (by decide)⟩

/-- The only strings shorter than 11 bytes that carry both the "!RAT!"
prefix and the "!CHT!" suffix are the two overlapping concatenations
"!RAT!CHT!" and "!RAT!!CHT!". -/
theorem short_envelope_shape (s : Bytes) (hp : s.take 5 = msgPre)
    (hsuf : s.drop (s.length - 5) = msgSuf) (hlen : s.length < 11) :
    s = [33, 82, 65, 84, 33, 67, 72, 84, 33] ∨ s = msgPre ++ msgSuf := by
  have h5 : 5 ≤ s.length := by
    have := congrArg List.length hp
    simp [msgPre] at this
    omega
  have hsplit : s = msgPre ++ s.drop 5 := by
    conv_lhs => rw [← List.take_append_drop 5 s]
    rw [hp]
  set r := s.drop 5 with hr
  have hs' : msgPre.drop (s.length - 5) ++ r = msgSuf := by
    rw [← List.drop_append_of_le_length (show s.length - 5 ≤ msgPre.length by
          simp [msgPre]; omega),
        ← hsplit]
    exact hsuf
  have hrlen : r.length = s.length - 5 := by
    rw [hr]
    simp
  have hcases : s.length = 5 ∨ s.length = 6 ∨ s.length = 7 ∨ s.length = 8 ∨
      s.length = 9 ∨ s.length = 10 := by omega
  rcases hcases with h | h | h | h | h | h
  · rw [h] at hs' hrlen
    have : r = [] := List.eq_nil_of_length_eq_zero (by omega)
    rw [this] at hs'
    simp [msgPre, msgSuf] at hs'
  · rw [h] at hs'
    simp [msgPre, msgSuf] at hs'
  · rw [h] at hs'
    simp [msgPre, msgSuf] at hs'
  · rw [h] at hs'
    simp [msgPre, msgSuf] at hs'
  · rw [h] at hs'
    simp [msgPre, msgSuf] at hs'
    left
    rw [hsplit, hs']
    rfl
  · rw [h] at hs'
    simp [msgPre, msgSuf] at hs'
    right
    rw [hsplit, hs']
    rfl

/-- C10: parser safety: unmarshalMessage never performs an out-of-range
index or slice access — on every input, including short inputs whose
prefix and suffix regions overlap, it returns a parsed message or an
error, never the out-of-bounds outcome. -/
theorem c10_parser_no_oob (s : Bytes) : unmarshalMessage s ≠ URes.oob := by
  simp only [unmarshalMessage]
  split
  · rename_i hps
    obtain ⟨hp, hsuf⟩ := hps
    split
    · rename_i hle
      exfalso
      rcases short_envelope_shape s hp hsuf (by omega) with h | h <;>
        (subst h; simp [msgPre, msgSuf] at hle)
    · rename_i hle
      split
      · rename_i hts
        split
        · rename_i hlt11
          exfalso
          rcases short_envelope_shape s hp hsuf hlt11 with h | h <;>
            (subst h; exact absurd hts (by decide))
        · split
          · simp
          · split <;> simp
      · simp
  · simp

end GoRatchet
